import Mathlib

/-!
Verification of the `tocker` interactive terminal front end.

The development shallowly embeds the program's three source files
(`src/main.rs`, `src/tui/mod.rs`, `src/tocker/mod.rs`): the interaction
state machine, the list-selection engine, the target extractor, the
keybinding and authorization tables and the outer session loop.  Key
events are consumed from an explicit list; the external `docker`
subprocess is an oracle parameter; `usize` underflow (a Rust panic in
debug builds) is modelled by `Option`/explicit `panicked` outcomes.
-/

namespace TockerModel

/-! ## Basic data model (from `src/tocker/mod.rs`) -/

inductive Moment where
  | KIND
  | COMMAND
  | TARGET
  deriving DecidableEq, Repr

inductive DockerKind where
  | Image
  | Container
  | Volume
  deriving DecidableEq, Repr

inductive DockerCommand where
  | LS
  | RM
  | TAG
  | STOP
  deriving DecidableEq, Repr

inductive TargetType where
  | INPUT
  | SELECT
  | EMPTY
  deriving DecidableEq, Repr

inductive GeneralCommand where
  | QUIT
  | CANCEL
  | HELP
  | CLEAN
  deriving DecidableEq, Repr

inductive Message where
  | OK
  | WRONG
  | QUIT
  | CANCEL
  | HELP
  | CLEAN
  deriving DecidableEq, Repr

inductive Select where
  | UP
  | DOWN
  | SELECT
  | CONFIRM
  | CANCEL
  deriving DecidableEq, Repr

/-- Resolved (kind, command, target) triple, `DockerPrompt` in the source. -/
structure DockerPrompt where
  kind : DockerKind
  command : DockerCommand
  target : String
  deriving DecidableEq, Repr

/-! ## Key events (crossterm values used by the program) -/

inductive KeyCode where
  | Char (c : Char)
  | Up
  | Down
  | Enter
  | Esc
  deriving DecidableEq, Repr

inductive KeyModifiers where
  | NONE
  | CONTROL
  deriving DecidableEq, Repr

structure KeyEvent where
  code : KeyCode
  modifiers : KeyModifiers
  deriving DecidableEq, Repr

/-- A crossterm event: either a key event or some other event
(resize, mouse, ...), which `extract_key_event` rejects. -/
inductive Event where
  | Key (e : KeyEvent)
  | Other
  deriving DecidableEq, Repr

def keyChar (c : Char) : KeyEvent := ⟨.Char c, .NONE⟩

def keyCtrl (c : Char) : KeyEvent := ⟨.Char c, .CONTROL⟩

/-! ## Errors (`std::io::Error` values constructed by the program) -/

inductive ErrorKind where
  | InvalidInput
  | Interrupted
  deriving DecidableEq, Repr

structure Err where
  kind : ErrorKind
  msg : String
  deriving DecidableEq, Repr

/-! ## String utilities mirroring the Rust standard library operations
used by the program (`split_whitespace`, `contains("ID")`, `trim`,
`lines`), implemented on `List Char` so that everything is executable
and kernel-reducible. -/

def isWsChar (c : Char) : Bool :=
  c = ' ' || c = '\t' || c = '\n' || c = '\r'

/-- `str::split_whitespace`: whitespace-delimited tokens, empties skipped.
The accumulator holds the current token in reverse order. -/
def splitWsAux : List Char → List Char → List (List Char)
  | [], acc => if acc.isEmpty then [] else [acc.reverse]
  | c :: rest, acc =>
    if isWsChar c then
      if acc.isEmpty then splitWsAux rest [] else acc.reverse :: splitWsAux rest []
    else
      splitWsAux rest (c :: acc)

def splitWs (l : List Char) : List (List Char) := splitWsAux l []

def hasPrefixID : List Char → Bool
  | 'I' :: 'D' :: _ => true
  | _ => false

/-- `str::contains("ID")`: some tail of the token starts with `I`, `D`. -/
def containsID : List Char → Bool
  | [] => false
  | c :: rest => hasPrefixID (c :: rest) || containsID rest

/-- `str::trim` (ASCII whitespace suffices for this program's data). -/
def trimChars (l : List Char) : List Char :=
  ((l.dropWhile isWsChar).reverse.dropWhile isWsChar).reverse

/-- Build one line from the reversed accumulator, stripping the trailing
carriage return exactly as `str::lines` does. -/
def mkLine (acc : List Char) : String :=
  match acc with
  | '\r' :: rest => ⟨rest.reverse⟩
  | _ => ⟨acc.reverse⟩

def rustLinesAux : List Char → List Char → List String
  | [], [] => []
  | [], acc => [mkLine acc]
  | '\n' :: rest, acc => mkLine acc :: rustLinesAux rest []
  | c :: rest, acc => rustLinesAux rest (c :: acc)

/-- `str::lines`: split on newline; a trailing newline yields no empty
final line; a trailing `\r` on each line is stripped. -/
def rustLines (s : String) : List String := rustLinesAux s.data []

/-! ## Keybinding and authorization tables (`Tocker::new`) -/

def kind_keybindings (e : KeyEvent) : Option DockerKind :=
  if e = keyChar 'i' then some .Image
  else if e = keyChar 'c' then some .Container
  else if e = keyChar 'v' then some .Volume
  else none

def command_keybindings (e : KeyEvent) : Option DockerCommand :=
  if e = keyChar 'l' then some .LS
  else if e = keyChar 'r' then some .RM
  else if e = keyChar 's' then some .STOP
  else if e = keyChar 't' then some .TAG
  else none

def general_keybindings (e : KeyEvent) : Option GeneralCommand :=
  if e = keyCtrl 'c' then some .CANCEL
  else if e = (⟨.Esc, .NONE⟩ : KeyEvent) then some .CANCEL
  else if e = keyCtrl 'q' then some .QUIT
  else if e = keyCtrl 'h' then some .HELP
  else if e = keyCtrl 'l' then some .CLEAN
  else none

def select_keybindings (e : KeyEvent) : Option Select :=
  if e = (⟨.Up, .NONE⟩ : KeyEvent) then some .UP
  else if e = keyChar 'j' then some .UP
  else if e = (⟨.Down, .NONE⟩ : KeyEvent) then some .DOWN
  else if e = keyChar 'k' then some .DOWN
  else if e = keyChar ' ' then some .SELECT
  else if e = (⟨.Enter, .NONE⟩ : KeyEvent) then some .CONFIRM
  else if e = keyCtrl 'c' then some .CANCEL
  else none

/-- `allowed_commands.mapping`: which commands are legal per kind. -/
def allowed_mapping : DockerKind → Option (List DockerCommand)
  | .Image => some [.LS, .RM, .TAG]
  | .Container => some [.LS, .RM, .STOP]
  | .Volume => some [.LS, .RM]

/-- `allowed_commands.legenda`: the per-kind hint strings. -/
def legenda : DockerKind → Option String
  | .Image => some "Available commands for image: \n l = ls, r = rm, t = tag"
  | .Container => some "Available commands for container: \n l = ls, r = rm, s = stop"
  | .Volume => some "Available commands for volume: \n l = ls, r = rm"

def target_mapping : DockerCommand → Option TargetType
  | .RM => some .SELECT
  | .STOP => some .SELECT
  | .LS => some .EMPTY
  | .TAG => some .INPUT

def help_string : String :=
  "[c/i/v] = container/image/volume; \n [ctrl+q] = quit; [ctrl+c] = cancel action; [ctrl+l] = clear content; [ctrl+b] build image from path"

def INITIAL_COMMANDS : String :=
  "Available commands: \n press \x27i\x27 = image, \x27c\x27 = container, \x27v\x27 = volume."

def TARGET_COMMANDS : String :=
  "Available commands: \n press \x27space\x27 = select, \x27enter\x27 = confirm"

/-! ## Pure lookups returning `io::Error` on failure -/

def check_select (event : KeyEvent) : Except Err Select :=
  match select_keybindings event with
  | some s => .ok s
  | none => .error ⟨.InvalidInput, "Invalid key input for selection"⟩

def check_keybinding (event : KeyEvent) (moment : Moment) : Except Err Message :=
  match general_keybindings event with
  | some cmd =>
    match cmd with
    | .QUIT => .ok .QUIT
    | .CANCEL => .ok .CANCEL
    | .HELP => .ok .HELP
    | .CLEAN => .ok .CLEAN
  | none =>
    match moment with
    | .KIND =>
      match kind_keybindings event with
      | some _ => .ok .OK
      | none => .ok .WRONG
    | .COMMAND =>
      match command_keybindings event with
      | some _ => .ok .OK
      | none => .ok .WRONG
    | .TARGET => .error ⟨.InvalidInput, "Input should not be considered as commands"⟩

def get_available_commands (key_event : KeyEvent) : Except Err String :=
  match kind_keybindings key_event with
  | none => .error ⟨.InvalidInput, "Key pressed doesn\x27t have any available commands"⟩
  | some kind =>
    match legenda kind with
    | none => .error ⟨.InvalidInput, "Key pressed doesn\x27t have any available commands"⟩
    | some s => .ok s

def check_for_target (first second : KeyEvent) : Except Err TargetType :=
  match kind_keybindings first with
  | none => .error ⟨.InvalidInput, "Not valid inputs"⟩
  | some kind =>
    match allowed_mapping kind with
    | none => .error ⟨.InvalidInput, "Not valid inputs"⟩
    | some allowed =>
      match command_keybindings second with
      | none => .error ⟨.InvalidInput, "Not valid inputs"⟩
      | some cmd =>
        if allowed.contains cmd then
          match target_mapping cmd with
          | none => .error ⟨.InvalidInput, "Not valid inputs"⟩
          | some t => .ok t
        else
          .error ⟨.InvalidInput, "Not valid inputs"⟩

/-! ## TUI state (`src/tui/mod.rs`) -/

/-- One displayed row: text plus the toggled (`selected`) flag. -/
structure ContentItem where
  text : String
  selected : Bool
  deriving DecidableEq, Repr

structure AppState where
  content : List ContentItem
  commands : String
  moment : Moment
  cursor : Nat
  deriving DecidableEq, Repr

/-- The whole interactive system threaded through the loops: the TUI
state, the not-yet-consumed input events, and the log of docker
invocations issued so far (most recent last). -/
structure Sys where
  state : AppState
  events : List Event
  log : List DockerPrompt
  deriving DecidableEq, Repr

/-- Result of a subprocess invocation (`std::process::Output`):
the exit-status success flag and stdout, `none` when the bytes are not
valid UTF-8 (so that `String::from_utf8(..).unwrap()` panics). -/
structure Output where
  success : Bool
  stdout : Option String
  deriving DecidableEq, Repr

/-- Outcome of a fallible step of the interface: normal return, an
`io::Error` propagated by `?`, process exit via the QUIT action, a Rust
panic, or running out of input events (the program would block). -/
inductive R (α : Type) where
  | ok (a : α) (w : Sys)
  | err (e : Err) (w : Sys)
  | quit (w : Sys)
  | panicked (msg : String) (w : Sys)
  | starved (w : Sys)
  deriving DecidableEq, Repr

def bindR {α β : Type} (r : R α) (f : α → Sys → R β) : R β :=
  match r with
  | .ok a w => f a w
  | .err e w => .err e w
  | .quit w => .quit w
  | .panicked m w => .panicked m w
  | .starved w => .starved w

def overflowMsg : String := "attempt to subtract with overflow"

def unwrapExecMsg : String := "called unwrap on an Err value in execute_cmd"

def unwrapUtf8Msg : String := "called unwrap on an Err value in from_utf8"

/-! ## Target extraction (`Tui::extract_target_string`) -/

/-- The sequential update of `id_column_index` over the enumerated header
tokens: a token containing "ID" at token index `i` sets the column to
`i - 1`; at `i = 0` the `usize` subtraction underflows (Rust panic),
modelled as an absorbing `none`. -/
def id_scan : Nat → Option Nat → List (List Char) → Option Nat
  | _, acc, [] => acc
  | i, acc, t :: ts =>
    id_scan (i + 1)
      (match acc with
       | none => none
       | some v => if containsID t then (if i = 0 then none else some (i - 1)) else some v)
      ts

def id_col (toks : List (List Char)) : Option Nat := id_scan 0 (some 0) toks

/-- Appending step for one non-header row: a toggled row contributes a
space and its token at the identifier column, if that token exists. -/
def extract_step (idx : Nat) (acc : List Char) (item : ContentItem) : List Char :=
  if item.selected then
    match (splitWs item.text.data).get? idx with
    | some tok => acc ++ ' ' :: tok
    | none => acc
  else acc

/-- `extract_target_string`; `none` models the panic on `usize`
underflow while locating the identifier column. -/
def extract_target_string (content : List ContentItem) : Option String :=
  match content with
  | [] => some ""
  | header :: rest =>
    match id_col (splitWs header.text.data) with
    | none => none
    | some idx => some ⟨trimChars (rest.foldl (extract_step idx) [])⟩

/-! ## Cursor movement and toggling (list-selection engine) -/

/-- `add_cursor`: increment, wrapping to 1 (not 0) at or past the end. -/
def add_cursor (st : AppState) : AppState :=
  { st with cursor := if st.cursor + 1 ≥ st.content.length then 1 else st.cursor + 1 }

/-- `sub_cursor`: decrement; `none` models the `usize` underflow panic
when the cursor is already 0, or when wrapping with an empty list. -/
def sub_cursor (st : AppState) : Option AppState :=
  if st.cursor = 0 then none
  else if st.cursor - 1 ≤ 0 then
    if st.content.length = 0 then none
    else some { st with cursor := st.content.length - 1 }
  else some { st with cursor := st.cursor - 1 }

/-- Flip the `selected` flag of the element at the given index; the list
is unchanged when the index is out of range (`get_mut` returns `None`). -/
def toggleList : List ContentItem → Nat → List ContentItem
  | [], _ => []
  | x :: xs, 0 => ⟨x.text, !x.selected⟩ :: xs
  | x :: xs, n + 1 => x :: toggleList xs n

def toggle_sel (st : AppState) : AppState :=
  { st with content := toggleList st.content st.cursor }

/-! ## State-machine steps (`Tui`) -/

def go_to_first (st : AppState) : AppState :=
  { st with commands := INITIAL_COMMANDS, cursor := 0, moment := .KIND }

def help (st : AppState) : AppState :=
  match st.moment with
  | .KIND => { st with commands := help_string }
  | _ => st

def clean (st : AppState) : AppState :=
  { st with content := [] }

def cancelErr : Err := ⟨.Interrupted, "User canceled the action"⟩

def wrongErr : Err := ⟨.InvalidInput, "Press only the available keys"⟩

/-- `read()` + `Tocker::extract_key_event`: pop the next event; a
non-key event is rejected with an error. -/
def extract_key_event_sys (w : Sys) : R KeyEvent :=
  match w.events with
  | [] => .starved w
  | e :: rest =>
    match e with
    | .Key ke => .ok ke { w with events := rest }
    | .Other => .err ⟨.InvalidInput, "Press a valid key"⟩ { w with events := rest }

def next_action (m : Message) (w : Sys) : R Unit :=
  match m with
  | .HELP => .ok () { w with state := help w.state }
  | .CLEAN => .ok () { w with state := clean w.state }
  | .CANCEL => .err cancelErr { w with state := go_to_first w.state }
  | .QUIT => .quit w
  | .WRONG => .err wrongErr w
  | .OK => .ok () w

def go_to_second (first : KeyEvent) (w : Sys) : R Unit :=
  match get_available_commands first with
  | .error e => .err e w
  | .ok cmds => .ok () { w with state := { w.state with commands := cmds, moment := .COMMAND } }

def get_first (w : Sys) : R KeyEvent :=
  bindR (extract_key_event_sys w) (fun first w1 =>
    match check_keybinding first w1.state.moment with
    | .error e => .err e w1
    | .ok msg =>
      bindR (next_action msg w1) (fun _ w2 =>
        bindR (go_to_second first w2) (fun _ w3 => .ok first w3)))

def get_second (w : Sys) : R KeyEvent :=
  bindR (extract_key_event_sys w) (fun second w1 =>
    match check_keybinding second w1.state.moment with
    | .error e => .err e w1
    | .ok msg =>
      bindR (next_action msg w1) (fun _ w2 => .ok second w2))

/-- The list-selection loop: refresh the hint, read one key, resolve it
in the list-navigation context, and act.  CANCEL and CONFIRM break out
of the loop (both fall through to extraction and execution in
`looping`); an unbound key propagates an error out of the loop. -/
def select_loop : List Event → AppState → List DockerPrompt → R Unit
  | [], st, log => .starved ⟨{ st with commands := TARGET_COMMANDS }, [], log⟩
  | e :: rest, st, log =>
    let st1 := { st with commands := TARGET_COMMANDS }
    match e with
    | .Other => .err ⟨.InvalidInput, "Press a valid key"⟩ ⟨st1, rest, log⟩
    | .Key ke =>
      match check_select ke with
      | .error er => .err er ⟨st1, rest, log⟩
      | .ok sel =>
        match sel with
        | .UP => select_loop rest (add_cursor st1) log
        | .DOWN =>
          match sub_cursor st1 with
          | none => .panicked overflowMsg ⟨st1, rest, log⟩
          | some st2 => select_loop rest st2 log
        | .SELECT => select_loop rest (toggle_sel st1) log
        | .CANCEL => .ok () ⟨go_to_first st1, rest, log⟩
        | .CONFIRM => .ok () ⟨st1, rest, log⟩

/-- One pass of `Tui::looping`: collect the two keys, determine the
target type, run the selection loop when required, extract the target,
execute docker and replace the content with its stdout lines. -/
def looping (oracle : DockerPrompt → Except Err Output) (w : Sys) : R Unit :=
  bindR (get_first w) (fun first w1 =>
    bindR (get_second w1) (fun second w2 =>
      match check_for_target first second with
      | .error e => .err e w2
      | .ok tt =>
        bindR
          (match tt with
           | .SELECT => select_loop w2.events w2.state w2.log
           | _ => .ok () w2)
          (fun _ w3 =>
            match extract_target_string w3.state.content with
            | none => .panicked overflowMsg w3
            | some target =>
              match kind_keybindings first, command_keybindings second with
              | some kind, some cmd =>
                let p : DockerPrompt := ⟨kind, cmd, target⟩
                let w4 : Sys := { w3 with log := w3.log ++ [p] }
                match oracle p with
                | .error _ => .panicked unwrapExecMsg w4
                | .ok out =>
                  match out.stdout with
                  | none => .panicked unwrapUtf8Msg w4
                  | some text =>
                    .ok ()
                      { w4 with
                        state := go_to_first
                          { w4.state with
                            content := (rustLines text).map (fun l => ⟨l, false⟩) } }
              | _, _ => .panicked unwrapExecMsg w3)))

/-- Final outcome of a (finite-input) session. -/
inductive Final where
  | starved (w : Sys)
  | quit (w : Sys)
  | panicked (msg : String) (w : Sys)
  deriving DecidableEq, Repr

/-- `Tui::start_loop`: run `looping` forever, appending each propagated
error as a row.  Fuel bounds the number of iterations; every iteration
of the real loop consumes at least one input event, so any fuel of at
least `events.length + 1` is exact. -/
def run_session (oracle : DockerPrompt → Except Err Output) : Nat → Sys → Final
  | 0, w => .starved w
  | n + 1, w =>
    match looping oracle w with
    | .ok _ w1 => run_session oracle n w1
    | .err e w1 =>
      run_session oracle n
        { w1 with state := { w1.state with content := w1.state.content ++ [⟨e.msg, false⟩] } }
    | .quit w1 => .quit w1
    | .panicked m w1 => .panicked m w1
    | .starved w1 => .starved w1

/-! ## Startup sequence (`main` and the constructors) -/

inductive StartupAction where
  | enableRawMode
  | enterAltScreen
  | daemonProbe
  | exitProcess (code : Nat)
  | enterLoop
  deriving DecidableEq, Repr

/-- `Tocker::new`: probe `docker info`; on a non-success status the
process exits with code 1. -/
def tocker_new_trace (probeOk : Bool) : List StartupAction :=
  .daemonProbe :: (if probeOk then [] else [.exitProcess 1])

/-- `Tui::new`: enable raw mode, enter the alternate screen, then
construct `Tocker` (which runs the daemon probe). -/
def tui_new_trace (probeOk : Bool) : List StartupAction :=
  .enableRawMode :: .enterAltScreen :: tocker_new_trace probeOk

/-- `main`: enable raw mode, build the `Tui`, then (if still alive)
enter the interactive loop. -/
def main_trace (probeOk : Bool) : List StartupAction :=
  .enableRawMode :: (tui_new_trace probeOk ++ if probeOk then [.enterLoop] else [])

def isProbe : StartupAction → Bool
  | .daemonProbe => true
  | _ => false

def isModeChange : StartupAction → Bool
  | .enableRawMode => true
  | .enterAltScreen => true
  | _ => false

/-! ## Concrete fixtures used by the claim theorems -/

/-- The initial TUI state built by `Tui::new`. -/
def st0 : AppState := ⟨[], INITIAL_COMMANDS, .KIND, 0⟩

/-- Oracle whose subprocess always succeeds with empty stdout. -/
def oracle0 : DockerPrompt → Except Err Output := fun _ => .ok ⟨true, some ""⟩

/-- Oracle whose subprocess succeeds but emits bytes that are not valid
UTF-8 (`String::from_utf8` fails). -/
def oracleUtf8Bad : DockerPrompt → Except Err Output := fun _ => .ok ⟨true, none⟩

/-- Oracle whose subprocess cannot be spawned (`Command::output` errors). -/
def oracleSpawnErr : DockerPrompt → Except Err Output :=
  fun _ => .error ⟨.InvalidInput, "spawn failure"⟩

/-- Oracle whose subprocess exits non-zero with a diagnostic on stdout. -/
def oracleNonZero : DockerPrompt → Except Err Output :=
  fun _ => .ok ⟨false, some "error: no such container"⟩

/-- Oracle producing a two-line `docker container ls` style table. -/
def oracleTable : DockerPrompt → Except Err Output :=
  fun _ => .ok ⟨true, some "CONTAINER ID NAMES\nabc123 foo"⟩

/-- A state holding a previously listed container table, as left by a
completed `container ls` cycle. -/
def stC1 : AppState :=
  ⟨[⟨"CONTAINER ID NAMES", false⟩, ⟨"abc123 foo", false⟩], INITIAL_COMMANDS, .KIND, 0⟩

/-- State right after the two keys of a `container _` cycle resolved. -/
def stMidC6 : AppState :=
  ⟨[], "Available commands for container: \n l = ls, r = rm, s = stop", .COMMAND, 0⟩

def pLS : DockerPrompt := ⟨.Container, .LS, ""⟩

/-- The worked extraction example from the specification. -/
def exampleRows : List ContentItem :=
  [⟨"REPOSITORY  TAG  IMAGE ID  SIZE", false⟩, ⟨"myimg latest abc123 10MB", true⟩]

/-- Iterated UP presses. -/
def upSeq (st : AppState) : Nat → AppState
  | 0 => st
  | n + 1 => add_cursor (upSeq st n)

/-- Three-row list with the cursor on the header, as at selection entry. -/
def stW : AppState := ⟨[⟨"H", false⟩, ⟨"a", false⟩, ⟨"b", false⟩], "", .KIND, 0⟩

/-- Three-row list with the cursor on the last selectable row. -/
def stW1 : AppState := ⟨[⟨"H", false⟩, ⟨"a", false⟩, ⟨"b", false⟩], "", .KIND, 2⟩

/-- Two-row list with the cursor on the selectable row. -/
def stC9w : AppState := ⟨[⟨"hdr", false⟩, ⟨"row", false⟩], "", .COMMAND, 1⟩

/-- Empty list with an out-of-range cursor. -/
def stC9e : AppState := ⟨[], "", .KIND, 5⟩

/-! ## Helper lemmas -/

theorem id_scan_none : ∀ (ts : List (List Char)) (i : Nat), id_scan i none ts = none := by
  intro ts
  induction ts with
  | nil => intro i; rfl
  | cons t ts ih => intro i; exact ih (i + 1)

theorem id_scan_no_id : ∀ (ts : List (List Char)) (i : Nat) (acc : Option Nat),
    (∀ t ∈ ts, containsID t = false) → id_scan i acc ts = acc := by
  intro ts
  induction ts with
  | nil => intro i acc _; rfl
  | cons t ts ih =>
    intro i acc hall
    have ht : containsID t = false := hall t (by simp)
    have hrest : ∀ u ∈ ts, containsID u = false := fun u hu => hall u (by simp [hu])
    cases acc with
    | none => simpa [id_scan, ht] using ih (i + 1) none hrest
    | some v => simpa [id_scan, ht] using ih (i + 1) (some v) hrest

theorem id_scan_pos : ∀ (ts : List (List Char)) (i v : Nat), 1 ≤ i →
    ∃ u, id_scan i (some v) ts = some u := by
  intro ts
  induction ts with
  | nil => intro i v _; exact ⟨v, rfl⟩
  | cons t ts ih =>
    intro i v hi
    by_cases ht : containsID t = true
    · have hne : ¬ i = 0 := by omega
      simpa [id_scan, ht, hne] using ih (i + 1) (i - 1) (by omega)
    · simp only [Bool.not_eq_true] at ht
      simpa [id_scan, ht] using ih (i + 1) v (by omega)

theorem id_scan_append : ∀ (xs ys : List (List Char)) (i : Nat) (acc : Option Nat),
    id_scan i acc (xs ++ ys) = id_scan (i + xs.length) (id_scan i acc xs) ys := by
  intro xs
  induction xs with
  | nil => intro ys i acc; simp [id_scan]
  | cons x xs ih =>
    intro ys i acc
    simp only [List.cons_append, id_scan, List.length_cons]
    rw [show i + (xs.length + 1) = (i + 1) + xs.length by omega]
    exact ih ys (i + 1) _

theorem foldl_extract_step_unsel :
    ∀ (items : List ContentItem) (idx : Nat) (acc : List Char),
      (∀ it ∈ items, it.selected = false) → items.foldl (extract_step idx) acc = acc := by
  intro items
  induction items with
  | nil => intro idx acc _; rfl
  | cons x xs ih =>
    intro idx acc hall
    have hx : x.selected = false := hall x (by simp)
    have hstep : extract_step idx acc x = acc := by simp [extract_step, hx]
    simp only [List.foldl_cons, hstep]
    exact ih idx acc (fun it hit => hall it (by simp [hit]))

theorem toggleList_oob : ∀ (l : List ContentItem) (i : Nat),
    l.length ≤ i → toggleList l i = l := by
  intro l
  induction l with
  | nil => intro i _; rfl
  | cons x xs ih =>
    intro i hi
    cases i with
    | zero => simp at hi
    | succ n =>
      simp only [toggleList]
      rw [ih n (by simpa using hi)]

theorem toggleList_get_eq : ∀ (l : List ContentItem) (i : Nat) (it : ContentItem),
    l.get? i = some it → (toggleList l i).get? i = some ⟨it.text, !it.selected⟩ := by
  intro l
  induction l with
  | nil => intro i it h; simp [List.get?] at h
  | cons x xs ih =>
    intro i it h
    cases i with
    | zero =>
      simp only [List.get?_cons_zero, Option.some.injEq] at h
      subst h
      rfl
    | succ n =>
      simp only [List.get?_cons_succ] at h
      simpa only [toggleList, List.get?_cons_succ] using ih n it h

theorem toggleList_get_ne : ∀ (l : List ContentItem) (i j : Nat),
    j ≠ i → (toggleList l i).get? j = l.get? j := by
  intro l
  induction l with
  | nil => intro i j _; rfl
  | cons x xs ih =>
    intro i j hne
    cases i with
    | zero =>
      cases j with
      | zero => exact absurd rfl hne
      | succ m => rfl
    | succ n =>
      cases j with
      | zero => rfl
      | succ m =>
        simpa only [toggleList, List.get?_cons_succ] using ih n m (by omega)

theorem add_cursor_content (st : AppState) : (add_cursor st).content = st.content := rfl

theorem upSeq_content (st : AppState) : ∀ n, (upSeq st n).content = st.content := by
  intro n
  induction n with
  | zero => rfl
  | succ n ih =>
    show (add_cursor (upSeq st n)).content = st.content
    rw [add_cursor_content, ih]

theorem upSeq_cursor (st : AppState) (N : Nat) (hN : st.content.length = N) (h1 : 1 < N)
    (h0 : st.cursor = 0) : ∀ n, (upSeq st (n + 1)).cursor = n % (N - 1) + 1 := by
  intro n
  induction n with
  | zero =>
    show (add_cursor (upSeq st 0)).cursor = 0 % (N - 1) + 1
    simp only [upSeq, add_cursor, hN, h0, Nat.zero_mod]
    split <;> rfl
  | succ n ih =>
    show (add_cursor (upSeq st (n + 1))).cursor = (n + 1) % (N - 1) + 1
    have hc : (upSeq st (n + 1)).content.length = N := by rw [upSeq_content, hN]
    have hm1 : 1 ≤ N - 1 := by omega
    have hlt : n % (N - 1) < N - 1 := Nat.mod_lt _ (by omega)
    have hd := Nat.div_add_mod n (N - 1)
    simp only [add_cursor, hc, ih]
    by_cases hcase : n % (N - 1) + 1 = N - 1
    · have hif : n % (N - 1) + 1 + 1 ≥ N := by omega
      rw [if_pos hif]
      have hdiv : n + 1 = (N - 1) * (n / (N - 1) + 1) := by
        rw [Nat.mul_add, Nat.mul_one]
        omega
      have hmod : (n + 1) % (N - 1) = 0 := by
        rw [hdiv]
        exact Nat.mul_mod_right _ _
      omega
    · have hif : ¬ (n % (N - 1) + 1 + 1 ≥ N) := by omega
      rw [if_neg hif]
      have hsplit2 : n + 1 = (N - 1) * (n / (N - 1)) + (n % (N - 1) + 1) := by omega
      have hmod : (n + 1) % (N - 1) = n % (N - 1) + 1 := by
        conv_lhs => rw [hsplit2]
        rw [Nat.mul_add_mod]
        exact Nat.mod_eq_of_lt (by omega)
      omega

theorem add_sub_inverse (st : AppState) (N : Nat) (hN : st.content.length = N) (h1 : 1 < N)
    (hlo : 1 ≤ st.cursor) (hhi : st.cursor ≤ N - 1) :
    sub_cursor (add_cursor st) = some st ∧ (sub_cursor st).map add_cursor = some st := by
  obtain ⟨co, cm, mo, cu⟩ := st
  simp only at hN hlo hhi
  subst hN
  constructor
  · by_cases hc : co.length ≤ cu + 1
    · have h0 : ¬ co.length = 0 := by omega
      simp [add_cursor, sub_cursor, hc, h0]
      omega
    · simp [add_cursor, sub_cursor, hc, show ¬ cu + 1 = 0 from by omega,
        show ¬ cu + 1 - 1 ≤ 0 from by omega]
      exact fun h => absurd h (by omega)
  · by_cases hc : cu = 1
    · subst hc
      have h0 : ¬ co.length = 0 := by omega
      have hwrap : co.length ≤ co.length - 1 + 1 := by omega
      simp [sub_cursor, add_cursor, h0, hwrap]
    · have ha : ¬ cu = 0 := by omega
      have hb : ¬ cu - 1 ≤ 0 := by omega
      have hnw : ¬ co.length ≤ cu - 1 + 1 := by omega
      simp [sub_cursor, add_cursor, ha, hb, hnw]
      omega

/-! ## Claim theorems -/

/-- Claim C1.  In a list-selection session, pressing CANCEL after
UP/TOGGLE presses resets the interaction to AwaitingKind with cursor 0,
but the selection loop merely breaks: `looping` falls through to target
extraction and still executes the external command for that cycle with
the toggled row as target.  The run below (container/stop, move down to
the row, toggle it, then CANCEL) ends with `docker container stop
abc123` in the execution log, contradicting the claim that no external
command is executed for a cancelled cycle. -/
theorem C1_cancel_still_executes :
    looping oracle0 ⟨stC1,
        [.Key (keyChar 'c'), .Key (keyChar 's'), .Key ⟨.Up, .NONE⟩,
         .Key (keyChar ' '), .Key (keyCtrl 'c')], []⟩ =
      .ok () ⟨⟨[], INITIAL_COMMANDS, .KIND, 0⟩, [], [⟨.Container, .STOP, "abc123"⟩]⟩
    ∧ ([(⟨.Container, .STOP, "abc123"⟩ : DockerPrompt)] : List DockerPrompt) ≠ [] := by
  decide

/-- Claim C2, counterexample.  The claim says terminal mode is never
modified before the daemon probe succeeds; in the startup trace of a
failing probe, raw mode (a terminal-mode change) occurs strictly before
the probe. -/
theorem C2_mode_change_precedes_probe :
    ((main_trace false).takeWhile (fun a => !isProbe a)).any isModeChange = true
    ∧ (main_trace false).head? = some .enableRawMode := by
  decide

/-- Claim C2, amended.  A failing daemon probe terminates the process
with exit code 1, but only after raw mode has been enabled (twice: in
`main` and in `Tui::new`) and the alternate screen entered; terminal
mode is therefore modified before the probe runs, and is left modified
on the failing exit. -/
theorem C2_startup_trace :
    main_trace false =
      [.enableRawMode, .enableRawMode, .enterAltScreen, .daemonProbe, .exitProcess 1]
    ∧ main_trace true =
      [.enableRawMode, .enableRawMode, .enterAltScreen, .daemonProbe, .enterLoop] := by
  exact ⟨rfl, rfl⟩

/-- Claim C3, counterexample.  After the unauthorized pair
(volume, stop) is rejected, the cycle does restart without a Prompt,
but `Moment` is left at `COMMAND`: the state machine does not reset to
AwaitingKind as the claim states. -/
theorem C3_auth_failure_moment_not_reset :
    looping oracle0 ⟨st0, [.Key (keyChar 'v'), .Key (keyChar 's')], []⟩ =
      .err ⟨.InvalidInput, "Not valid inputs"⟩
        ⟨⟨[], "Available commands for volume: \n l = ls, r = rm", .COMMAND, 0⟩, [], []⟩
    ∧ Moment.COMMAND ≠ Moment.KIND := by
  decide

/-- Claim C4, counterexample.  A row list with zero toggled rows whose
header's first token contains "ID" does not yield the empty string: the
identifier-column computation performs `0 - 1` on a `usize` and the
extraction has no defined result (`none` models the panic). -/
theorem C4_zero_toggled_underflow_cex :
    extract_target_string [⟨"ID NAME", false⟩] = none
    ∧ extract_target_string [⟨"ID NAME", false⟩] ≠ some "" := by
  decide

/-- Claim C5.  On an empty RowList the cursor arithmetic is not
guarded: UP (`add_cursor`) moves the cursor from 0 to 1 instead of
leaving it at 0, and DOWN (`sub_cursor`) performs `0 - 1` on a `usize`
and panics (`none`), as the selection loop run shows.  TOGGLE is a
no-op and extraction of the empty list is the empty string, as
claimed. -/
theorem C5_empty_list_behavior :
    add_cursor st0 = ⟨[], INITIAL_COMMANDS, .KIND, 1⟩
    ∧ sub_cursor st0 = none
    ∧ toggle_sel st0 = st0
    ∧ extract_target_string [] = some ""
    ∧ select_loop [.Key ⟨.Down, .NONE⟩] st0 [] =
        .panicked overflowMsg ⟨⟨[], TARGET_COMMANDS, .KIND, 0⟩, [], []⟩ := by
  decide

/-- Claim C6.  Subprocess failures are not surfaced as recoverable
rows: stdout that is not valid UTF-8 panics in `from_utf8(..).unwrap()`,
a spawn error panics in `execute_cmd(..).unwrap()`, and a non-zero exit
status is never inspected — its stdout silently becomes the new content
with no error row, the cycle ending as a normal success. -/
theorem C6_subprocess_failure_behavior :
    looping oracleUtf8Bad ⟨st0, [.Key (keyChar 'c'), .Key (keyChar 'l')], []⟩ =
      .panicked unwrapUtf8Msg ⟨stMidC6, [], [pLS]⟩
    ∧ looping oracleSpawnErr ⟨st0, [.Key (keyChar 'c'), .Key (keyChar 'l')], []⟩ =
      .panicked unwrapExecMsg ⟨stMidC6, [], [pLS]⟩
    ∧ looping oracleNonZero ⟨st0, [.Key (keyChar 'c'), .Key (keyChar 'l')], []⟩ =
      .ok () ⟨⟨[⟨"error: no such container", false⟩], INITIAL_COMMANDS, .KIND, 0⟩,
              [], [pLS]⟩ := by
  decide

/-- Claim C7, counterexample.  Cancelling during AwaitingCommand is not
silent: the propagated `Interrupted` error is pushed by `start_loop` as
a row "User canceled the action", so the list gains an error row. -/
theorem C7_cancel_appends_row_cex :
    run_session oracle0 2 ⟨st0, [.Key (keyChar 'i'), .Key (keyCtrl 'c')], []⟩ =
      .starved ⟨⟨[⟨"User canceled the action", false⟩], INITIAL_COMMANDS, .KIND, 0⟩, [], []⟩
    ∧ ([(⟨"User canceled the action", false⟩ : ContentItem)] : List ContentItem) ≠
        st0.content := by
  decide

/-- Claim C9, counterexample.  In a reachable session (a `container ls`
cycle fills the list, then `container stop` enters selection with the
cursor at 0), pressing TOGGLE flips the header row's flag: the header's
toggled flag is set, so TOGGLE at the header is not a no-op. -/
theorem C9_header_toggle_cex :
    run_session oracleTable 2
        ⟨st0, [.Key (keyChar 'c'), .Key (keyChar 'l'), .Key (keyChar 'c'),
               .Key (keyChar 's'), .Key (keyChar ' ')], []⟩ =
      .starved ⟨⟨[⟨"CONTAINER ID NAMES", true⟩, ⟨"abc123 foo", false⟩],
                 TARGET_COMMANDS, .COMMAND, 0⟩, [], [pLS]⟩
    ∧ (([⟨"CONTAINER ID NAMES", true⟩, ⟨"abc123 foo", false⟩] :
          List ContentItem).get? 0).map ContentItem.selected = some true := by
  decide

/-- Claim C3, amended.  For every (kind, command) pair whose command is
not in the authorization table's allowed set for that kind, the check
fails before any Prompt is constructed (the execution log is unchanged),
the failure becomes a single status row appended by the outer loop, and
the session continues — but `Moment` is left at AwaitingCommand, not
reset to AwaitingKind. -/
theorem C3_auth_failure_behavior
    (oracle : DockerPrompt → Except Err Output) (st : AppState)
    (log : List DockerPrompt) (rest : List Event)
    (f s : KeyEvent) (k : DockerKind) (c : DockerCommand)
    (A : List DockerCommand) (L : String)
    (hm : st.moment = .KIND)
    (hgf : general_keybindings f = none) (hkf : kind_keybindings f = some k)
    (hL : legenda k = some L)
    (hgs : general_keybindings s = none) (hcs : command_keybindings s = some c)
    (hA : allowed_mapping k = some A) (hno : A.contains c = false) :
    looping oracle ⟨st, .Key f :: .Key s :: rest, log⟩ =
      .err ⟨.InvalidInput, "Not valid inputs"⟩
        ⟨⟨st.content, L, .COMMAND, st.cursor⟩, rest, log⟩
    ∧ ∀ n, run_session oracle (n + 1) ⟨st, .Key f :: .Key s :: rest, log⟩ =
        run_session oracle n
          ⟨⟨st.content ++ [⟨"Not valid inputs", false⟩], L, .COMMAND, st.cursor⟩,
           rest, log⟩ := by
  obtain ⟨co, cm, mo, cu⟩ := st
  simp only at hm
  subst hm
  simp at hno
  have hloop : looping oracle ⟨⟨co, cm, .KIND, cu⟩, .Key f :: .Key s :: rest, log⟩ =
      .err ⟨.InvalidInput, "Not valid inputs"⟩
        ⟨⟨co, L, .COMMAND, cu⟩, rest, log⟩ := by
    simp [looping, get_first, get_second, bindR, extract_key_event_sys,
      check_keybinding, next_action, go_to_second, get_available_commands,
      check_for_target, hgf, hkf, hL, hgs, hcs, hA, hno]
  refine ⟨hloop, fun n => ?_⟩
  simp only [run_session, hloop]

/-- Witness for C3: the unauthorized pair (volume, tag) at the initial
state, with the error row appended and the moment left at COMMAND. -/
theorem C3_auth_failure_behavior_witness :
    looping oracle0 ⟨st0, [.Key (keyChar 'v'), .Key (keyChar 't')], []⟩ =
      .err ⟨.InvalidInput, "Not valid inputs"⟩
        ⟨⟨[], "Available commands for volume: \n l = ls, r = rm", .COMMAND, 0⟩, [], []⟩
    ∧ run_session oracle0 1 ⟨st0, [.Key (keyChar 'v'), .Key (keyChar 't')], []⟩ =
      run_session oracle0 0
        ⟨⟨[⟨"Not valid inputs", false⟩],
          "Available commands for volume: \n l = ls, r = rm", .COMMAND, 0⟩, [], []⟩ := by
  have h := C3_auth_failure_behavior oracle0 st0 [] [] (keyChar 'v') (keyChar 't')
    .Volume .TAG [.LS, .RM] "Available commands for volume: \n l = ls, r = rm"
    rfl (by decide) (by decide) rfl (by decide) (by decide) rfl (by decide)
  exact ⟨h.1, h.2 0⟩

/-- Claim C7, amended.  Global CANCEL in AwaitingKind or AwaitingCommand
returns `Moment` to AwaitingKind, resets the cursor to 0 and the hint to
the initial legend, discarding any previously resolved kind — but the
cancellation is not silent: the outer loop appends the row
"User canceled the action" to the list. -/
theorem C7_cancel_behavior
    (oracle : DockerPrompt → Except Err Output) (st : AppState)
    (log : List DockerPrompt) (rest rest2 : List Event)
    (e f : KeyEvent) (k : DockerKind) (L : String)
    (hM : st.moment = .KIND ∨ st.moment = .COMMAND)
    (hge : general_keybindings e = some .CANCEL)
    (hgf : general_keybindings f = none) (hkf : kind_keybindings f = some k)
    (hL : legenda k = some L) :
    looping oracle ⟨st, .Key e :: rest, log⟩ =
      .err cancelErr ⟨go_to_first st, rest, log⟩
    ∧ (st.moment = .KIND →
        looping oracle ⟨st, .Key f :: .Key e :: rest2, log⟩ =
          .err cancelErr ⟨go_to_first st, rest2, log⟩)
    ∧ (∀ n, run_session oracle (n + 1) ⟨st, .Key e :: rest, log⟩ =
        run_session oracle n
          ⟨⟨st.content ++ [⟨"User canceled the action", false⟩],
            INITIAL_COMMANDS, .KIND, 0⟩, rest, log⟩) := by
  obtain ⟨co, cm, mo, cu⟩ := st
  have h1 : looping oracle ⟨⟨co, cm, mo, cu⟩, .Key e :: rest, log⟩ =
      .err cancelErr ⟨go_to_first ⟨co, cm, mo, cu⟩, rest, log⟩ := by
    simp [looping, get_first, bindR, extract_key_event_sys, check_keybinding,
      next_action, hge]
  refine ⟨h1, fun hm => ?_, fun n => ?_⟩
  · simp only at hm
    subst hm
    simp [looping, get_first, get_second, bindR, extract_key_event_sys,
      check_keybinding, next_action, go_to_second, get_available_commands,
      hge, hgf, hkf, hL, go_to_first]
  · simp only [run_session, h1]
    rfl

/-- Witness for C7: Esc cancels at AwaitingKind and mid-cycle at
AwaitingCommand after the kind 'v' was chosen; the error row is appended
by the outer loop. -/
theorem C7_cancel_behavior_witness :
    looping oracle0 ⟨st0, [.Key ⟨.Esc, .NONE⟩], []⟩ =
      .err cancelErr ⟨go_to_first st0, [], []⟩
    ∧ looping oracle0 ⟨st0, [.Key (keyChar 'v'), .Key ⟨.Esc, .NONE⟩], []⟩ =
      .err cancelErr ⟨go_to_first st0, [], []⟩
    ∧ run_session oracle0 1 ⟨st0, [.Key ⟨.Esc, .NONE⟩], []⟩ =
      run_session oracle0 0
        ⟨⟨[⟨"User canceled the action", false⟩], INITIAL_COMMANDS, .KIND, 0⟩, [], []⟩ := by
  have h := C7_cancel_behavior oracle0 st0 [] [] [] ⟨.Esc, .NONE⟩ (keyChar 'v')
    .Volume "Available commands for volume: \n l = ls, r = rm"
    (Or.inl rfl) (by decide) (by decide) (by decide) rfl
  exact ⟨h.1, h.2.1 rfl, h.2.2 0⟩

/-- Claim C8.  For a RowList of length N > 1, repeated UP presses from
cursor 0 visit 1, 2, ..., N-1, 1, 2, ... (`n % (N-1) + 1` after n+1
presses), never revisiting index 0, and on the range [1, N-1] DOWN is
the exact inverse of UP and vice versa. -/
theorem C8_up_down_cycle (st : AppState) (N : Nat) (hN : st.content.length = N)
    (h1 : 1 < N) :
    (∀ n, st.cursor = 0 →
      (upSeq st (n + 1)).cursor = n % (N - 1) + 1 ∧ (upSeq st (n + 1)).cursor ≠ 0)
    ∧ (1 ≤ st.cursor → st.cursor ≤ N - 1 →
        sub_cursor (add_cursor st) = some st ∧ (sub_cursor st).map add_cursor = some st) := by
  refine ⟨fun n h0 => ?_, fun hlo hhi => add_sub_inverse st N hN h1 hlo hhi⟩
  have hc := upSeq_cursor st N hN h1 h0 n
  exact ⟨hc, by omega⟩

/-- Witness for C8: a three-row list; after four UP presses from 0 the
cursor is 3 % 2 + 1 = 2, and UP/DOWN invert each other at cursor 2. -/
theorem C8_up_down_cycle_witness :
    ((upSeq stW 4).cursor = 3 % 2 + 1 ∧ (upSeq stW 4).cursor ≠ 0)
    ∧ sub_cursor (add_cursor stW1) = some stW1
    ∧ (sub_cursor stW1).map add_cursor = some stW1 := by
  have h := C8_up_down_cycle stW 3 rfl (by omega)
  have h1 := C8_up_down_cycle stW1 3 rfl (by omega)
  exact ⟨h.1 3 rfl, (h1.2 (by decide) (by decide)).1, (h1.2 (by decide) (by decide)).2⟩

/-- Claim C9, amended.  TOGGLE flips the toggled flag of the row at the
cursor whenever the cursor is in range — including the header at index
0 — and is a no-op only when the cursor is out of range (in particular
when the list is empty); pressing TOGGLE right after entering list
selection (cursor 0) therefore sets the header's flag, as the concrete
selection-loop run shows. -/
theorem C9_toggle_semantics (st : AppState) :
    (st.content.length ≤ st.cursor → toggle_sel st = st)
    ∧ (∀ it, st.content.get? st.cursor = some it →
        (toggle_sel st).content.get? st.cursor = some ⟨it.text, !it.selected⟩
        ∧ ∀ j, j ≠ st.cursor → (toggle_sel st).content.get? j = st.content.get? j)
    ∧ select_loop [.Key (keyChar ' ')]
        ⟨[⟨"IMAGE ID TAG", false⟩, ⟨"img1 latest", false⟩], INITIAL_COMMANDS, .COMMAND, 0⟩
        [] =
      .starved ⟨⟨[⟨"IMAGE ID TAG", true⟩, ⟨"img1 latest", false⟩],
                 TARGET_COMMANDS, .COMMAND, 0⟩, [], []⟩ := by
  refine ⟨fun hoob => ?_, fun it hit => ⟨?_, fun j hj => ?_⟩, by decide⟩
  · show ({ st with content := toggleList st.content st.cursor } : AppState) = st
    rw [toggleList_oob st.content st.cursor hoob]
  · exact toggleList_get_eq st.content st.cursor it hit
  · exact toggleList_get_ne st.content st.cursor j hj

/-- Witness for C9: toggling at cursor 1 flips that row; with an empty
list and cursor 5 the toggle is a no-op. -/
theorem C9_toggle_semantics_witness :
    (toggle_sel stC9w).content.get? 1 = some ⟨"row", true⟩
    ∧ toggle_sel stC9e = stC9e := by
  have h := C9_toggle_semantics stC9w
  have he := C9_toggle_semantics stC9e
  exact ⟨(h.2.1 ⟨"row", false⟩ (by decide)).1, he.1 (by decide)⟩

/-- Claim C10.  Extraction is partial exactly at headers whose first
whitespace token contains "ID": there the identifier-column computation
performs `0 - 1` on an unsigned index (a panic, `none` in the
embedding); when the first token does not contain "ID" the extraction
is defined. -/
theorem C10_extraction_partial (h : ContentItem) (rest : List ContentItem)
    (t : List Char) (ts : List (List Char)) (hsplit : splitWs h.text.data = t :: ts) :
    (containsID t = true → extract_target_string (h :: rest) = none)
    ∧ (containsID t = false → ∃ s, extract_target_string (h :: rest) = some s) := by
  constructor
  · intro hid
    have hcol : id_col (splitWs h.text.data) = none := by
      rw [hsplit]
      simp only [id_col, id_scan, hid]
      simpa using id_scan_none ts 1
    simp [extract_target_string, hcol]
  · intro hid
    obtain ⟨u, hu⟩ := id_scan_pos ts 1 0 (le_refl 1)
    have hcol : id_col (splitWs h.text.data) = some u := by
      rw [hsplit]
      simpa only [id_col, id_scan, hid] using hu
    simp [extract_target_string, hcol]

/-- Witness for C10: header "ID NAMES" (first token bears "ID") has no
defined extraction; header "IMAGE ID" does. -/
theorem C10_extraction_partial_witness :
    extract_target_string [⟨"ID NAMES", false⟩] = none
    ∧ ∃ s, extract_target_string [⟨"IMAGE ID", false⟩] = some s := by
  have h1 := C10_extraction_partial ⟨"ID NAMES", false⟩ []
    ['I', 'D'] [['N', 'A', 'M', 'E', 'S']] (by decide)
  have h2 := C10_extraction_partial ⟨"IMAGE ID", false⟩ []
    ['I', 'M', 'A', 'G', 'E'] [['I', 'D']] (by decide)
  exact ⟨h1.1 (by decide), h2.2 (by decide)⟩

/-- Claim C4, amended.  The worked example extracts "abc123"; a row
list with zero toggled rows yields the empty string whenever extraction
is defined (that is, unless the header's first token contains "ID",
where the index computation underflows); with no "ID"-bearing token the
identifier column defaults to 0; and when the (unique) "ID"-bearing
token sits at token index i ≥ 1, the identifier column is i - 1, the
index of the token immediately preceding it. -/
theorem C4_extract_amended :
    extract_target_string exampleRows = some "abc123"
    ∧ (∀ (content : List ContentItem) (r : String),
        (∀ it ∈ content.drop 1, it.selected = false) →
        extract_target_string content = some r → r = "")
    ∧ (∀ toks : List (List Char), (∀ t ∈ toks, containsID t = false) → id_col toks = some 0)
    ∧ (∀ (pre : List (List Char)) (t : List Char) (post : List (List Char)),
        1 ≤ pre.length → (∀ u ∈ pre, containsID u = false) → containsID t = true →
        (∀ u ∈ post, containsID u = false) →
        id_col (pre ++ t :: post) = some (pre.length - 1)) := by
  refine ⟨by decide, ?_, ?_, ?_⟩
  · intro content r hunsel hr
    cases content with
    | nil =>
      simp [extract_target_string] at hr
      exact hr.symm
    | cons hd rest =>
      simp only [List.drop_succ_cons, List.drop_zero] at hunsel
      cases hcol : id_col (splitWs hd.text.data) with
      | none => simp [extract_target_string, hcol] at hr
      | some idx =>
        simp only [extract_target_string, hcol, Option.some.injEq] at hr
        rw [foldl_extract_step_unsel rest idx [] hunsel] at hr
        exact hr.symm
  · intro toks hall
    exact id_scan_no_id toks 0 (some 0) hall
  · intro pre t post hlen hpre hid hpost
    simp only [id_col]
    rw [id_scan_append]
    rw [id_scan_no_id pre 0 (some 0) hpre]
    have hne : ¬ (0 + pre.length = 0) := by omega
    simp only [id_scan, hid, if_true, hne, if_false]
    rw [id_scan_no_id post (0 + pre.length + 1) _ hpost]
    simp

/-- Witness for C4: the preceding-token rule at a singleton prefix and
the default column for an "ID"-free header. -/
theorem C4_extract_amended_witness :
    id_col ([['N']] ++ ['I', 'D'] :: [['S']]) = some 0
    ∧ id_col [['a'], ['b']] = some 0 := by
  have h := C4_extract_amended
  exact ⟨h.2.2.2 [['N']] ['I', 'D'] [['S']] (by decide) (by decide) (by decide) (by decide),
    h.2.2.1 [['a'], ['b']] (by decide)⟩

end TockerModel
